import Mathlib

/-!
Verification of the streaming conversational pipeline of `livekit_audio`.

The development shallowly embeds the pipeline logic of the repository:

* `src/llm.rs` — the utterance accumulator and completion streamer
  (`run_llm`, `ends_with_splitter`);
* `src/stt.rs` — the transcription bridge's inbound text handler
  (`WSClient::on_text`);
* `src/livekit.rs` — the room-event handler's chat-message arm
  (`handle_room_events`, `CHAT_PREFIX`);
* `src/main.rs` — the webhook front door (`livekit_webhook_handler`).

Time is modelled in milliseconds as `Nat`; `tokio::time::Instant` values become
plain timestamps and `Instant::elapsed` becomes truncated subtraction (the
monotonic clock never runs backwards, so `now - last` is the elapsed time).
JSON values (`serde_json::Value`) are modelled by the inductive `Json` below,
together with a recursive-descent parser mirroring `serde_json::from_str` on
the message shapes the program handles: objects, arrays, strings with escapes,
integer numbers, booleans and null.  Floating-point numbers are not modelled
(the model rejects them); no message the program handles carries one.
-/

deriving instance DecidableEq for Except

namespace LivekitAudio

/-- Model of `serde_json::Value`.  Objects keep their fields in source order;
numbers are modelled as integers (the messages in scope carry only integer
timestamps). -/
inductive Json where
  | null : Json
  | bool : Bool → Json
  | num : Int → Json
  | str : String → Json
  | arr : List Json → Json
  | obj : List (String × Json) → Json

/-- JSON insignificant whitespace. -/
def isJsonWs (c : Char) : Bool :=
  c == ' ' || c == '\t' || c == '\n' || c == '\r'

/-- Drop leading JSON whitespace. -/
def skipWs : List Char → List Char
  | [] => []
  | c :: rest => if isJsonWs c then skipWs rest else c :: rest

/-- Value of one hexadecimal digit. -/
def hexVal (c : Char) : Option Nat :=
  if '0' ≤ c && c ≤ '9' then some (c.toNat - 48)
  else if 'a' ≤ c && c ≤ 'f' then some (c.toNat - 87)
  else if 'A' ≤ c && c ≤ 'F' then some (c.toNat - 55)
  else none

/-- Parse the body of a JSON string literal (the opening quote already
consumed), returning the decoded characters and the input after the closing
quote.  Handles the simple escapes and `\uXXXX`; raw control characters are
rejected, as `serde_json` rejects them. -/
def parseStringBody : List Char → Option (List Char × List Char)
  | [] => none
  | '\x22' :: rest => some ([], rest)
  | '\\' :: 'u' :: h1 :: h2 :: h3 :: h4 :: rest =>
    match hexVal h1, hexVal h2, hexVal h3, hexVal h4 with
    | some a, some b, some c, some d =>
      let n := ((a * 16 + b) * 16 + c) * 16 + d
      match parseStringBody rest with
      | some (cs, r) => some (Char.ofNat n :: cs, r)
      | none => none
    | _, _, _, _ => none
  | '\\' :: e :: rest =>
    let esc : Option Char :=
      if e = '\x22' then some '\x22'
      else if e = '\\' then some '\\'
      else if e = '/' then some '/'
      else if e = 'n' then some '\n'
      else if e = 't' then some '\t'
      else if e = 'r' then some '\r'
      else if e = 'b' then some '\x08'
      else if e = 'f' then some '\x0c'
      else none
    match esc with
    | some ch =>
      match parseStringBody rest with
      | some (cs, r) => some (ch :: cs, r)
      | none => none
    | none => none
  | c :: rest =>
    if c.toNat < 32 then none
    else
      match parseStringBody rest with
      | some (cs, r) => some (c :: cs, r)
      | none => none

/-- Split off the leading decimal digits. -/
def takeDigits : List Char → List Char × List Char
  | [] => ([], [])
  | c :: rest =>
    if c.isDigit then
      let (ds, r) := takeDigits rest
      (c :: ds, r)
    else ([], c :: rest)

/-- Value of a digit string. -/
def digitsToNat (acc : Nat) : List Char → Nat
  | [] => acc
  | c :: rest => digitsToNat (acc * 10 + (c.toNat - 48)) rest

/-- Parse a JSON integer (optional minus sign followed by digits).  A fraction
or exponent part makes the model reject the input; the program's messages
carry only integer numbers. -/
def parseIntNumber (s : List Char) : Option (Json × List Char) :=
  let (neg, s1) :=
    match s with
    | '-' :: r => (true, r)
    | _ => (false, s)
  match takeDigits s1 with
  | ([], _) => none
  | (ds, rest) =>
    match rest with
    | '.' :: _ => none
    | 'e' :: _ => none
    | 'E' :: _ => none
    | _ =>
      let v : Int := Int.ofNat (digitsToNat 0 ds)
      some (Json.num (if neg then -v else v), rest)

mutual

/-- Fueled recursive-descent parser for one JSON value, mirroring
`serde_json` on the shapes in scope.  Returns the value and the remaining
input. -/
def parseJsonValue : Nat → List Char → Option (Json × List Char)
  | 0, _ => none
  | fuel + 1, s =>
    match skipWs s with
    | [] => none
    | '\x22' :: rest =>
      match parseStringBody rest with
      | some (cs, r) => some (Json.str ⟨cs⟩, r)
      | none => none
    | 't' :: 'r' :: 'u' :: 'e' :: rest => some (Json.bool true, rest)
    | 'f' :: 'a' :: 'l' :: 's' :: 'e' :: rest => some (Json.bool false, rest)
    | 'n' :: 'u' :: 'l' :: 'l' :: rest => some (Json.null, rest)
    | '\x7b' :: rest =>
      match skipWs rest with
      | '\x7d' :: r => some (Json.obj [], r)
      | s1 =>
        match parseJsonMembers fuel s1 with
        | some (ms, r) => some (Json.obj ms, r)
        | none => none
    | '[' :: rest =>
      match skipWs rest with
      | ']' :: r => some (Json.arr [], r)
      | s1 =>
        match parseJsonElems fuel s1 with
        | some (xs, r) => some (Json.arr xs, r)
        | none => none
    | c :: rest =>
      if c = '-' || c.isDigit then parseIntNumber (c :: rest) else none

/-- Parse the members of a JSON object (after the opening brace, at least one
member), up to and including the closing brace. -/
def parseJsonMembers : Nat → List Char → Option (List (String × Json) × List Char)
  | 0, _ => none
  | fuel + 1, s =>
    match s with
    | '\x22' :: rest =>
      match parseStringBody rest with
      | some (key, r1) =>
        (match skipWs r1 with
        | ':' :: r2 =>
          match parseJsonValue fuel r2 with
          | some (v, r3) =>
            (match skipWs r3 with
            | ',' :: r4 =>
              match parseJsonMembers fuel (skipWs r4) with
              | some (ms, r5) => some ((⟨key⟩, v) :: ms, r5)
              | none => none
            | '\x7d' :: r4 => some ([(⟨key⟩, v)], r4)
            | _ => none)
          | none => none
        | _ => none)
      | none => none
    | _ => none

/-- Parse the elements of a JSON array (after the opening bracket, at least
one element), up to and including the closing bracket. -/
def parseJsonElems : Nat → List Char → Option (List Json × List Char)
  | 0, _ => none
  | fuel + 1, s =>
    match parseJsonValue fuel s with
    | some (v, r1) =>
      (match skipWs r1 with
      | ',' :: r2 =>
        match parseJsonElems fuel r2 with
        | some (xs, r3) => some (v :: xs, r3)
        | none => none
      | ']' :: r2 => some ([v], r2)
      | _ => none)
    | none => none

end

/-- Model of `serde_json::from_str::<Value>`: parse a whole input string,
requiring that only whitespace remains after the value.  The fuel
`length + 1` suffices because every recursive descent consumes at least one
character of the remaining input. -/
def Json.parse (s : String) : Option Json :=
  match parseJsonValue (s.length + 1) s.toList with
  | some (v, rest) => if (skipWs rest).isEmpty then some v else none
  | none => none

/-- Hexadecimal digit character (used when escaping control characters). -/
def hexDigit (n : Nat) : Char :=
  if n < 10 then Char.ofNat (48 + n) else Char.ofNat (87 + n)

/-- Escape one character of a JSON string for serialization, as
`serde_json`'s serializer does. -/
def escapeChar (c : Char) : List Char :=
  if c = '\x22' then ['\\', '\x22']
  else if c = '\\' then ['\\', '\\']
  else if c = '\n' then ['\\', 'n']
  else if c = '\r' then ['\\', 'r']
  else if c = '\t' then ['\\', 't']
  else if c = '\x08' then ['\\', 'b']
  else if c = '\x0c' then ['\\', 'f']
  else if c.toNat < 32 then
    ['\\', 'u', '0', '0', hexDigit (c.toNat / 16), hexDigit (c.toNat % 16)]
  else [c]

/-- Escape a whole string for JSON serialization. -/
def escapeString (s : String) : String :=
  ⟨(s.toList.map escapeChar).flatten⟩

mutual

/-- Model of `Value::to_string()` (`serde_json::to_string`): compact JSON
serialization.  In particular a JSON string value is rendered with its
surrounding quotes and escapes. -/
def Json.render : Json → String
  | Json.null => "null"
  | Json.bool true => "true"
  | Json.bool false => "false"
  | Json.num n => toString n
  | Json.str s => "\"" ++ escapeString s ++ "\""
  | Json.arr xs => "[" ++ Json.renderElems xs ++ "]"
  | Json.obj ms => "\x7b" ++ Json.renderMembers ms ++ "\x7d"

/-- Render array elements, comma separated. -/
def Json.renderElems : List Json → String
  | [] => ""
  | [x] => Json.render x
  | x :: xs => Json.render x ++ "," ++ Json.renderElems xs

/-- Render object members, comma separated. -/
def Json.renderMembers : List (String × Json) → String
  | [] => ""
  | [(k, v)] => "\"" ++ escapeString k ++ "\":" ++ Json.render v
  | (k, v) :: ms =>
    "\"" ++ escapeString k ++ "\":" ++ Json.render v ++ "," ++ Json.renderMembers ms

end

/-- Model of `serde_json::Value`'s `Index<&str>`: field lookup on objects,
`Null` on a missing field or a non-object. -/
def Json.index : Json → String → Json
  | Json.obj ms, key =>
    match ms.find? (fun m => m.1 == key) with
    | some m => m.2
    | none => Json.null
  | _, _ => Json.null

/-- Model of `serde_json::Value`'s `Index<usize>`: element lookup on arrays,
`Null` out of bounds or on a non-array. -/
def Json.indexNat : Json → Nat → Json
  | Json.arr xs, i => (xs.get? i).getD Json.null
  | _, _ => Json.null

/-- Whether a JSON value is `Null` (the comparison `transcript != Value::Null`
in the source). -/
def Json.isNull : Json → Bool
  | Json.null => true
  | _ => false

/-! ### Transcription bridge (`src/stt.rs`)

`WSClient::on_text` parses each inbound text message with
`serde_json::from_str` — the `?` operator propagates a parse failure as the
handler's error — then extracts
`data["channel"]["alternatives"][0]["transcript"]` and, when that value is not
`Null`, sends `transcript.to_string()` into the accumulator channel.  The
model returns `Except.error ()` when the handler returns `Err`, and otherwise
the optional string that was sent (a send failure is only logged, so the
value carried is the message offered to the channel). -/

def WSClient.on_text (text : String) : Except Unit (Option String) :=
  match Json.parse text with
  | none => Except.error ()
  | some data =>
    let transcript :=
      (((data.index "channel").index "alternatives").indexNat 0).index "transcript"
    if transcript.isNull then Except.ok none
    else Except.ok (some transcript.render)

/-! ### Room event handling (`src/livekit.rs`) -/

/-- `pub const CHAT_PREFIX: &str = "[chat]";` (`src/livekit.rs:21`). -/
def CHAT_PREFIX : String := "[chat]"

/-- `livekit::DataPacketKind`. -/
inductive DataPacketKind where
  | reliable : DataPacketKind
  | lossy : DataPacketKind
deriving DecidableEq

/-- `struct RoomText` (`src/livekit.rs:23`): `message: String`,
`timestamp: i64`. -/
structure RoomText where
  message : String
  timestamp : Int
deriving DecidableEq

/-- Model of `serde_json::from_str::<RoomText>`: the JSON must be an object
whose `message` field is a string and whose `timestamp` field is an integer
number; other fields are ignored (serde's default). -/
def RoomText.fromJson : Json → Option RoomText
  | Json.obj ms =>
    match ms.find? (fun m => m.1 == "message"), ms.find? (fun m => m.1 == "timestamp") with
    | some (_, Json.str m), some (_, Json.num t) => some ⟨m, t⟩
    | _, _ => none
  | _ => none

/-- `serde_json::from_str::<RoomText>` on a whole input string. -/
def RoomText.fromString (s : String) : Option RoomText :=
  (Json.parse s).bind RoomText.fromJson

/-- Model of the `RoomEvent::DataReceived` arm of `handle_room_events`
(`src/livekit.rs:149-169`): only reliable packets are handled; the payload
must be all-ASCII (`payload.as_ascii()`); it is then parsed as `RoomText` and
on success `format!("[chat]{} ", room_text.message)` is sent into the
accumulator channel (a parse failure or a send failure is only logged).  The
result is the string sent, if any. -/
def handle_data_received (kind : DataPacketKind) (payload : String) : Option String :=
  if kind = DataPacketKind.reliable then
    if payload.toList.all (fun c => c.toNat ≤ 127) then
      match RoomText.fromString payload with
      | some room_text => some ("[chat]" ++ room_text.message ++ " ")
      | none => none
    else none
  else none

/-! ### Utterance accumulator and completion streamer (`src/llm.rs`) -/

/-- Rust `str::ends_with(char)`: the string's last character is `c`. -/
def endsWithChar (s : String) (c : Char) : Bool :=
  s.toList.getLast? == some c

/-- The fixed boundary-character set of `run_llm` (`src/llm.rs:45`).  The
seventh entry is the em dash U+2014 (stored mojibake'd in the checked-out
copy of the source); `'\x7d'` is the closing curly brace character. -/
def splitters : List Char :=
  ['.', ',', '?', '!', ';', ':', '—', '-', '(', ')', '[', ']', '\x7d', ' ']

/-- `fn ends_with_splitter(splitters: &[char], chunk: &str) -> bool`
(`src/llm.rs:100-102`):
`!chunk.is_empty() && chunk != " " && splitters.iter().any(|&splitter| chunk.ends_with(splitter))`. -/
def ends_with_splitter (sps : List Char) (chunk : String) : Bool :=
  !chunk.isEmpty && chunk != " " && sps.any (fun splitter => endsWithChar chunk splitter)

/-- One iteration of the completion streamer's per-token work
(`src/llm.rs:75-82`), with the speech channel's consumer alive (the send
succeeds; a failed send is only logged and leaves the buffer uncleared):
push the token onto `tts_buffer`; if the buffer now passes the boundary test,
send its contents as a speech chunk and clear it.  Returns the new buffer and
the chunk sent, if any. -/
def ttsStep (tts_buffer content : String) : String × Option String :=
  let b := tts_buffer ++ content
  if ends_with_splitter splitters b then ("", some b) else (b, none)

/-- The inner `for chat_choice in response.choices` loop of one stream item
(`src/llm.rs:73-84`): each choice's optional `delta.content` is pushed through
`ttsStep`.  Returns the final buffer and the chunks sent, in order. -/
def process_contents (tts_buffer : String) : List (Option String) → String × List String
  | [] => (tts_buffer, [])
  | none :: rest => process_contents tts_buffer rest
  | some content :: rest =>
    match ttsStep tts_buffer content with
    | (b, some chunk) =>
      let (b', out) := process_contents b rest
      (b', chunk :: out)
    | (b, none) => process_contents b rest

/-- The `while let Some(result) = gpt_resp_stream.next().await` loop
(`src/llm.rs:70-90`): an `Ok` stream item contributes its choices' contents;
an `Err` item is logged (`warn!`) and the loop moves on to the next item.
Returns the final `tts_buffer` and all chunks sent, in order. -/
def drain_stream (tts_buffer : String) :
    List (Except Unit (List (Option String))) → String × List String
  | [] => (tts_buffer, [])
  | Except.ok contents :: rest =>
    let (b, out) := process_contents tts_buffer contents
    let (b', out') := drain_stream b rest
    (b', out ++ out')
  | Except.error _ :: rest => drain_stream tts_buffer rest

/-- The mutable state of `run_llm`'s loop: the utterance accumulation buffer
`txt_buffer`, the completion streamer's output buffer `tts_buffer` (declared
outside the loop, so it persists across responses), and the timestamp
`last_text_send_time` (milliseconds). -/
structure LLMState where
  txt_buffer : String
  tts_buffer : String
  last_text_send_time : Nat
deriving DecidableEq

/-- `let text_latency = Duration::from_millis(500);` (`src/llm.rs:49`). -/
def text_latency : Nat := 500

/-- One iteration of `run_llm`'s `while let Some(chunk)` loop
(`src/llm.rs:55-96`).  `now` is the arrival time of the input fragment;
`resp` is the token stream the model returns if a request is issued (the
request build and `create_stream` are assumed to succeed — their failures
exit `run_llm` altogether via `?`); `doneTime` is the clock value when the
response stream has been drained (`Instant::now()` at `src/llm.rs:92`).

The fragment is pushed onto `txt_buffer`.  If the buffer passes the boundary
test and at least `text_latency` has elapsed since `last_text_send_time`, the
whole buffer is sent to the model as one utterance, the response is drained
through the speech channel, the buffer is cleared and the timer reset;
otherwise, if the buffer does not end in a space, one space is pushed.
Returns the new state, the utterance sent (if any) and the speech chunks
emitted. -/
def run_llm_step (st : LLMState) (now : Nat) (chunk : String)
    (resp : List (Except Unit (List (Option String)))) (doneTime : Nat) :
    LLMState × Option String × List String :=
  let buf := st.txt_buffer ++ chunk
  if ends_with_splitter splitters buf && decide (text_latency ≤ now - st.last_text_send_time) then
    let (tb, chunks) := drain_stream st.tts_buffer resp
    (⟨"", tb, doneTime⟩, some buf, chunks)
  else
    let buf' := if !endsWithChar buf ' ' then buf ++ " " else buf
    (⟨buf', st.tts_buffer, st.last_text_send_time⟩, none, [])

/-- One input event of `run_llm`'s loop: arrival time, the received fragment,
the model's response stream for a request issued at this event (ignored when
no flush fires) and the time at which that response is fully drained. -/
structure LLMEvent where
  now : Nat
  chunk : String
  resp : List (Except Unit (List (Option String)))
  doneTime : Nat

/-- `run_llm`'s loop over a finite prefix of input events.  Returns the final
state, the utterance (if any) forwarded to the model at each event, and the
speech chunks emitted at each event. -/
def run_llm_events (st : LLMState) :
    List LLMEvent → LLMState × List (Option String) × List (List String)
  | [] => (st, [], [])
  | e :: es =>
    let (st', u, cs) := run_llm_step st e.now e.chunk e.resp e.doneTime
    let (stf, us, css) := run_llm_events st' es
    (stf, u :: us, cs :: css)

/-! ### Webhook front door (`src/main.rs`) -/

/-- `livekit_protocol::Room` — the fields `livekit_webhook_handler`
destructures (`src/main.rs:88-94`). -/
structure ProtoRoom where
  name : String
  max_participants : Nat
  num_participants : Nat
deriving DecidableEq

/-- The verified webhook event: its `event` string and optional room. -/
structure WebhookEvent where
  event : String
  room : Option ProtoRoom

/-- The HTTP responses `livekit_webhook_handler` can produce, carrying the
`ServerMsg` body text. -/
inductive WebhookResp where
  | methodNotAllowed : String → WebhookResp
  | internalError : String → WebhookResp
  | badRequest : String → WebhookResp
  | ok : String → WebhookResp
deriving DecidableEq

/-- Model of `livekit_webhook_handler` (`src/main.rs:50-136`).  The inputs
stand for the outcomes of the external steps: whether the request is a POST,
the result of `TokenVerifier::new()`, of decoding the body as UTF-8, of
`webhook_receiver.receive` (yielding the verified event), and of
`join_room_with_ai`.  `is_active` is the shared flag's value on entry.
Returns the response, the flag's value on exit, and whether
`join_room_with_ai` was invoked (a bot session start was attempted). -/
def livekit_webhook_handler (isPost : Bool) (verifier : Except String Unit)
    (body : Except String String) (received : Except String WebhookEvent)
    (joinResult : Except String Unit) (is_active : Bool) :
    WebhookResp × Bool × Bool :=
  if !isPost then (WebhookResp.methodNotAllowed "Method not allowed", is_active, false)
  else
    match verifier with
    | Except.error e => (WebhookResp.internalError e, is_active, false)
    | Except.ok _ =>
      match body with
      | Except.error e => (WebhookResp.badRequest e, is_active, false)
      | Except.ok _ =>
        match received with
        | Except.error e => (WebhookResp.internalError e, is_active, false)
        | Except.ok event =>
          match event.room with
          | some room =>
            if event.event = "room_started" then
              if room.num_participants < room.max_participants then
                match joinResult with
                | Except.error e => (WebhookResp.internalError e, is_active, true)
                | Except.ok _ =>
                  (WebhookResp.ok "Livekit Webhook Successfully Processed", true, true)
              else (WebhookResp.ok "Livekit Webhook Successfully Processed", is_active, false)
            else if event.event = "room_finished" then
              (WebhookResp.ok "Livekit Webhook Successfully Processed", false, false)
            else (WebhookResp.ok "Livekit Webhook Successfully Processed", is_active, false)
          | none => (WebhookResp.ok "Livekit Webhook Successfully Processed", is_active, false)

/-- Concatenation of a list of strings, in order. -/
def joinAll : List String → String
  | [] => ""
  | s :: rest => s ++ joinAll rest

/-- The tokens of the `Ok` items of a response stream, in order. -/
def okTokens : List (Except Unit (List (Option String))) → List String
  | [] => []
  | Except.ok contents :: rest => contents.filterMap id ++ okTokens rest
  | Except.error _ :: rest => okTokens rest

/-! ### Theorems -/

theorem joinAll_append (xs ys : List String) :
    joinAll (xs ++ ys) = joinAll xs ++ joinAll ys := by
  induction xs with
  | nil => simp [joinAll]
  | cons x xs ih => simp [joinAll, ih, String.append_assoc]

theorem string_ne_empty_of_left_ne_empty (a b : String) (h : a ≠ "") : a ++ b ≠ "" := by
  intro hab
  apply h
  have hdata : (a ++ b).data = [] := by rw [hab]
  rw [String.data_append] at hdata
  rcases List.append_eq_nil.mp hdata with ⟨ha, _⟩
  cases a
  simp_all

/-- C2 (confirmed): the boundary test `ends_with_splitter` holds exactly of
the strings that are non-empty, are not the one-space string, and end with
one of the fixed boundary characters; in particular it is false on `""` and
on `" "`. -/
theorem ends_with_splitter_characterization :
    (∀ s : String,
      ends_with_splitter splitters s = true ↔
        (s ≠ "" ∧ s ≠ " " ∧ ∃ c ∈ splitters, s.toList.getLast? = some c)) ∧
    ends_with_splitter splitters "" = false ∧
    ends_with_splitter splitters " " = false := by
  refine ⟨fun s => ?_, by decide, by decide⟩
  constructor
  · intro h
    simp only [ends_with_splitter, Bool.and_eq_true, Bool.not_eq_true',
      List.any_eq_true, endsWithChar, beq_iff_eq, bne_iff_ne] at h
    obtain ⟨⟨h1, h2⟩, c, hc, hlast⟩ := h
    refine ⟨?_, h2, c, hc, hlast⟩
    intro he
    subst he
    exact absurd h1 (by decide)
  · rintro ⟨h1, h2, c, hc, hlast⟩
    simp only [ends_with_splitter, Bool.and_eq_true, Bool.not_eq_true',
      List.any_eq_true, endsWithChar, beq_iff_eq, bne_iff_ne]
    refine ⟨⟨?_, h2⟩, c, hc, hlast⟩
    cases hE : s.isEmpty with
    | false => rfl
    | true => exact absurd ((String.isEmpty_iff s).1 hE) h1

/-- C1 (confirmed): one iteration of `run_llm` forwards the accumulated
buffer to the model exactly when the boundary test passes on the updated
buffer and at least the 500ms dwell time has elapsed since the previous
flush; when it forwards, it forwards the whole buffer.  In particular a
failed boundary test means no flush, however much time has elapsed. -/
theorem flush_gate_iff : ∀ (st : LLMState) (now : Nat) (chunk : String)
    (resp : List (Except Unit (List (Option String)))) (doneTime : Nat),
    ((run_llm_step st now chunk resp doneTime).2.1 ≠ none ↔
      (ends_with_splitter splitters (st.txt_buffer ++ chunk) = true ∧
        text_latency ≤ now - st.last_text_send_time)) ∧
    ((run_llm_step st now chunk resp doneTime).2.1 = none ∨
      (run_llm_step st now chunk resp doneTime).2.1 = some (st.txt_buffer ++ chunk)) := by
  intro st now chunk resp doneTime
  rcases hdr : drain_stream st.tts_buffer resp with ⟨tb, chunks⟩
  by_cases h : (ends_with_splitter splitters (st.txt_buffer ++ chunk) &&
      decide (text_latency ≤ now - st.last_text_send_time)) = true
  · have hcond : ends_with_splitter splitters (st.txt_buffer ++ chunk) = true ∧
        text_latency ≤ now - st.last_text_send_time := by
      rw [Bool.and_eq_true] at h
      exact ⟨h.1, of_decide_eq_true h.2⟩
    simp only [run_llm_step, if_pos h, hdr]
    exact ⟨⟨fun _ => hcond, fun _ => by simp⟩, Or.inr trivial⟩
  · have hcond : ¬ (ends_with_splitter splitters (st.txt_buffer ++ chunk) = true ∧
        text_latency ≤ now - st.last_text_send_time) := by
      intro ⟨h1, h2⟩
      exact h (by rw [Bool.and_eq_true]; exact ⟨h1, decide_eq_true h2⟩)
    simp only [run_llm_step, if_neg h]
    exact ⟨⟨fun hn => absurd rfl hn, fun hc => absurd hc hcond⟩, Or.inl trivial⟩

/-- C3 (confirmed): the completion streamer applies the boundary test
`ends_with_splitter` to its output buffer with no dwell-time gate — a token
step either emits the whole buffer at once and clears it (exactly when the
extended buffer passes the boundary test) or emits nothing — and on the
token sequence "Sure", ",", " I", " can." it emits exactly the chunks
"Sure," then " I can.", in that order. -/
theorem completion_streamer_boundary_emit :
    (∀ buf t : String,
      ttsStep buf t = ("", some (buf ++ t)) ∨ ttsStep buf t = (buf ++ t, none)) ∧
    (∀ buf t : String,
      ttsStep buf t = ("", some (buf ++ t)) ↔
        ends_with_splitter splitters (buf ++ t) = true) ∧
    drain_stream "" [Except.ok [some "Sure"], Except.ok [some ","],
      Except.ok [some " I"], Except.ok [some " can."]] = ("", ["Sure,", " I can."]) := by
  refine ⟨fun buf t => ?_, fun buf t => ?_, by decide⟩
  · by_cases h : ends_with_splitter splitters (buf ++ t) = true
    · left
      simp [ttsStep, h]
    · right
      simp [ttsStep, h]
  · by_cases h : ends_with_splitter splitters (buf ++ t) = true
    · simp [ttsStep, h]
    · simp only [ttsStep]
      rw [if_neg h]
      simp [h, Prod.ext_iff]

theorem string_toList_append (a b : String) :
    (a ++ b).toList = a.toList ++ b.toList := by
  simp [String.toList, String.data_append]

theorem process_contents_conservation : ∀ (cs : List (Option String)) (buf : String),
    joinAll (process_contents buf cs).2 ++ (process_contents buf cs).1 =
      buf ++ joinAll (cs.filterMap id) := by
  intro cs
  induction cs with
  | nil => intro buf; simp [process_contents, joinAll]
  | cons c rest ih =>
    intro buf
    cases c with
    | none =>
      simp only [process_contents, List.filterMap_cons_none]
      exact ih buf
    | some t =>
      by_cases h : ends_with_splitter splitters (buf ++ t) = true
      · have hstep : ttsStep buf t = ("", some (buf ++ t)) := by simp [ttsStep, h]
        rcases hpr : process_contents "" rest with ⟨b2, out⟩
        have ihh := ih ""
        rw [hpr] at ihh
        simp only [process_contents, hstep, hpr, joinAll, List.filterMap_cons_some]
        rw [String.append_assoc, ihh]
        simp [joinAll, String.append_assoc]
      · have hstep : ttsStep buf t = (buf ++ t, none) := by simp [ttsStep, h]
        have ihh := ih (buf ++ t)
        simp only [process_contents, hstep, List.filterMap_cons_some]
        rw [ihh]
        simp [joinAll, String.append_assoc]

theorem drain_stream_conservation :
    ∀ (items : List (Except Unit (List (Option String)))) (buf : String),
    joinAll (drain_stream buf items).2 ++ (drain_stream buf items).1 =
      buf ++ joinAll (okTokens items) := by
  intro items
  induction items with
  | nil => intro buf; simp [drain_stream, okTokens, joinAll]
  | cons i rest ih =>
    intro buf
    cases i with
    | error e =>
      simp only [drain_stream, okTokens]
      exact ih buf
    | ok contents =>
      rcases h1 : process_contents buf contents with ⟨b, out⟩
      rcases h2 : drain_stream b rest with ⟨b', out'⟩
      have hc := process_contents_conservation contents buf
      rw [h1] at hc
      have hd := ih b
      rw [h2] at hd
      simp only [drain_stream, okTokens, h1, h2, joinAll_append]
      calc (joinAll out ++ joinAll out') ++ b'
          = joinAll out ++ (joinAll out' ++ b') := by rw [String.append_assoc]
        _ = joinAll out ++ (b ++ joinAll (okTokens rest)) := by rw [hd]
        _ = (joinAll out ++ b) ++ joinAll (okTokens rest) := by rw [String.append_assoc]
        _ = (buf ++ joinAll (contents.filterMap id)) ++ joinAll (okTokens rest) := by rw [hc]
        _ = buf ++ (joinAll (contents.filterMap id) ++ joinAll (okTokens rest)) := by
            rw [String.append_assoc]

theorem process_contents_leftover_prefix :
    ∀ (cs : List (Option String)) (buf : String), buf ≠ "" →
    (process_contents buf cs).2 ≠ [] →
    buf.toList <+: ((process_contents buf cs).2.headD "").toList := by
  intro cs
  induction cs with
  | nil =>
    intro buf _ hc
    simp [process_contents] at hc
  | cons c rest ih =>
    intro buf hb hc
    cases c with
    | none =>
      simp only [process_contents] at hc ⊢
      exact ih buf hb hc
    | some t =>
      by_cases h : ends_with_splitter splitters (buf ++ t) = true
      · have hstep : ttsStep buf t = ("", some (buf ++ t)) := by simp [ttsStep, h]
        rcases hpr : process_contents "" rest with ⟨b2, out⟩
        simp only [process_contents, hstep, hpr, List.headD]
        rw [string_toList_append]
        exact List.prefix_append _ _
      · have hstep : ttsStep buf t = (buf ++ t, none) := by simp [ttsStep, h]
        simp only [process_contents, hstep] at hc ⊢
        have hb' : buf ++ t ≠ "" := string_ne_empty_of_left_ne_empty buf t hb
        refine List.IsPrefix.trans ?_ (ih (buf ++ t) hb' hc)
        rw [string_toList_append]
        exact List.prefix_append _ _

/-- C4 (corrected) counterexample: `tts_buffer` is declared outside
`run_llm`'s loop and is not cleared when a response ends, so text left
unflushed at the end of one completion response is merged into the first
chunk of a later response.  Here the first response's lone token "Hi" (no
boundary) stays buffered, and the second response's token " there." produces
the single chunk "Hi there." — a chunk of response two beginning with text
that originated in response one. -/
theorem speech_chunks_merge_across_responses :
    run_llm_events ⟨"", "", 0⟩
        [⟨1000, "Hi.", [Except.ok [some "Hi"]], 1000⟩,
         ⟨2000, "Go.", [Except.ok [some " there."]], 2000⟩] =
      (⟨"", "", 2000⟩, [some "Hi.", some "Go."], [[], ["Hi there."]]) ∧
    "Hi".toList <+: "Hi there.".toList ∧ "Hi there." ≠ " there." := by decide

/-- C4 (amended): speech chunks are emitted in the order of the model's
token stream — concatenating the emitted chunks and the final buffer
reproduces the initial buffer followed by the tokens in stream order — but
text left unflushed at the end of one response stays in the buffer and is
prepended to the first chunk emitted from a later response. -/
theorem speech_chunk_order_and_leftover :
    (∀ (buf : String) (cs : List (Option String)),
      joinAll (process_contents buf cs).2 ++ (process_contents buf cs).1 =
        buf ++ joinAll (cs.filterMap id)) ∧
    (∀ (buf : String) (items : List (Except Unit (List (Option String)))),
      joinAll (drain_stream buf items).2 ++ (drain_stream buf items).1 =
        buf ++ joinAll (okTokens items)) ∧
    (∀ (buf : String) (cs : List (Option String)), buf ≠ "" →
      (process_contents buf cs).2 ≠ [] →
      buf.toList <+: ((process_contents buf cs).2.headD "").toList) :=
  ⟨fun buf cs => process_contents_conservation cs buf,
   fun buf items => drain_stream_conservation items buf,
   fun buf cs => process_contents_leftover_prefix cs buf⟩

theorem speech_chunk_order_and_leftover_witness :
    "Hi".toList <+: ((process_contents "Hi" [some " there."]).2.headD "").toList :=
  speech_chunk_order_and_leftover.2.2 "Hi" [some " there."] (by decide) (by decide)

/-- C5 (corrected) counterexample: `run_llm` appends the separating space
after the new fragment (when no flush fires and the buffer does not already
end in a space), not between fragments.  For the fragments "Hello" then
" world." arriving 10ms apart the buffer becomes "Hello  world. " — with a
doubled internal space and a trailing space — not "Hello world.", and no
flush fires at the second fragment (the dwell time has not elapsed and the
code only checks on receipt of an input). -/
theorem accumulator_scenario_counterexample :
    run_llm_events ⟨"", "", 0⟩ [⟨0, "Hello", [], 0⟩, ⟨10, " world.", [], 10⟩] =
      (⟨"Hello  world. ", "", 0⟩, [none, none], [[], []]) ∧
    "Hello  world. " ≠ "Hello world." := by decide

/-- C5 (amended): on each input the fragment is appended to the buffer
verbatim, and when no flush fires a single trailing space is pushed unless
the buffer already ends in a space.  For the fragments "Hello" then
" world." arriving 10ms apart the buffer becomes "Hello  world. " and no
flush fires; a flush happens only when a further fragment arrives once the
dwell time has elapsed, emitting the whole buffer (that fragment
included). -/
theorem accumulator_append_rule :
    (∀ (st : LLMState) (now : Nat) (chunk : String)
      (resp : List (Except Unit (List (Option String)))) (doneTime : Nat),
      (ends_with_splitter splitters (st.txt_buffer ++ chunk) &&
        decide (text_latency ≤ now - st.last_text_send_time)) = false →
      run_llm_step st now chunk resp doneTime =
        (⟨if !endsWithChar (st.txt_buffer ++ chunk) ' ' then st.txt_buffer ++ chunk ++ " "
          else st.txt_buffer ++ chunk, st.tts_buffer, st.last_text_send_time⟩, none, [])) ∧
    run_llm_events ⟨"", "", 0⟩
        [⟨0, "Hello", [], 0⟩, ⟨10, " world.", [], 10⟩,
         ⟨600, "Thanks.", [Except.ok [some "Hi."]], 700⟩] =
      (⟨"", "", 700⟩, [none, none, some "Hello  world. Thanks."], [[], [], ["Hi."]]) := by
  refine ⟨fun st now chunk resp doneTime h => ?_, by decide⟩
  simp only [run_llm_step, h]
  rw [if_neg (by simp [h])]

theorem accumulator_append_rule_witness :
    run_llm_step ⟨"", "", 0⟩ 0 "Hello" [] 0 = (⟨"Hello ", "", 0⟩, none, []) := by
  rw [accumulator_append_rule.1 ⟨"", "", 0⟩ 0 "Hello" [] 0 (by decide)]
  decide

/-- C6 (corrected) counterexample: `WSClient::on_text` parses the inbound
text with `serde_json::from_str(&text)?` — the `?` operator propagates a
parse failure — so a message that does not parse as JSON makes the handler
return an error instead of being logged and skipped. -/
theorem on_text_malformed_errors :
    (Json.parse "not json").isNone = true ∧
    WSClient.on_text "not json" = Except.error () := by decide

/-- C6 (amended): every inbound text message from the transcription
connection that does not parse as JSON makes the text handler return the
parse error (propagated by `?`) rather than logging and skipping the
message. -/
theorem on_text_parse_failure_propagates :
    ∀ text : String, Json.parse text = none →
    WSClient.on_text text = Except.error () := by
  intro text h
  simp only [WSClient.on_text, h]

theorem on_text_parse_failure_propagates_witness :
    WSClient.on_text "zz" = Except.error () :=
  on_text_parse_failure_propagates "zz" (by rfl)

/-- C7 (corrected) counterexample: an error item in the completion response
stream is only logged (`warn!`) — the loop does not break, so the response
is not treated as ended: the token "B." arriving after the error is still
processed and emitted (inside the chunk "AB."), where the claim says the
response would be abandoned at the error. -/
theorem stream_error_not_abandoned :
    drain_stream "" [Except.ok [some "A"], Except.error (), Except.ok [some "B."]] =
      ("", ["AB."]) ∧
    (["AB."] : List String) ≠ [] := by decide

/-- C7 (amended): a mid-response stream error is logged and that item
skipped — consumption of the same response stream continues with the
remaining items (the stream is not treated as ended) — and the pipeline
loop continues: every input event is processed exactly once (no retry, no
termination). -/
theorem stream_error_skipped_loop_continues :
    (∀ (buf : String) (e : Unit) (rest : List (Except Unit (List (Option String)))),
      drain_stream buf (Except.error e :: rest) = drain_stream buf rest) ∧
    (∀ (st : LLMState) (es : List LLMEvent),
      (run_llm_events st es).2.1.length = es.length) := by
  refine ⟨fun buf e rest => rfl, fun st es => ?_⟩
  induction es generalizing st with
  | nil => rfl
  | cons e es ih =>
    rcases h1 : run_llm_step st e.now e.chunk e.resp e.doneTime with ⟨st', u, cs⟩
    rcases h2 : run_llm_events st' es with ⟨stf, us, css⟩
    have := ih st'
    rw [h2] at this
    simp only [run_llm_events, h1, h2, List.length_cons]
    simpa using this

/-- C8 (code bug): on the well-formed transcription message with transcript
"hi", the handler forwards `transcript.to_string()`, which is the JSON
re-serialization `"hi"` (quotes included) — not the plain string content
`hi` that the claim (and the spec's "extracts the first-alternative
transcript string") describes. -/
theorem on_text_forwards_serialized_transcript :
    WSClient.on_text "\x7b\"channel\":\x7b\"alternatives\":[\x7b\"transcript\":\"hi\"\x7d]\x7d\x7d" =
      Except.ok (some "\"hi\"") ∧
    ("\"hi\"" : String) ≠ "hi" := by decide

/-- C9 (corrected) counterexample: a reliably-delivered data message whose
payload parses as the message/timestamp shape but is not all-ASCII is
dropped by the `payload.as_ascii()` gate before parsing, so nothing is
forwarded — the claim's universal statement fails on non-ASCII payloads. -/
theorem chat_nonascii_dropped :
    RoomText.fromString "\x7b\"message\":\"café\",\"timestamp\":1\x7d" =
      some ⟨"café", 1⟩ ∧
    handle_data_received DataPacketKind.reliable
      "\x7b\"message\":\"café\",\"timestamp\":1\x7d" = none := by decide

/-- C9 (amended): every reliably-delivered room data message whose payload
is all-ASCII and parses as the message/timestamp shape is forwarded into
the accumulator channel as the chat prefix, the message text and a trailing
space. -/
theorem chat_forwarding_ascii :
    ∀ (payload : String) (m : String) (t : Int),
    payload.toList.all (fun c => c.toNat ≤ 127) = true →
    RoomText.fromString payload = some ⟨m, t⟩ →
    handle_data_received DataPacketKind.reliable payload =
      some (CHAT_PREFIX ++ m ++ " ") := by
  intro payload m t hascii hparse
  have h2 : ∀ x ∈ payload.data, x.toNat ≤ 127 := by
    simpa [List.all_eq_true, String.toList] using hascii
  simp [handle_data_received, hparse, CHAT_PREFIX]
  exact h2

theorem chat_forwarding_ascii_witness :
    handle_data_received DataPacketKind.reliable
      "\x7b\"message\":\"hi there\",\"timestamp\":1\x7d" = some "[chat]hi there " :=
  chat_forwarding_ascii "\x7b\"message\":\"hi there\",\"timestamp\":1\x7d" "hi there" 1
    (by decide) (by decide)

/-- C10 (confirmed): for a verified `room_started` webhook event, the
handler attempts a bot session start only when the room's
`num_participants` is strictly below `max_participants`; when
`num_participants >= max_participants` no session start is attempted and
the active flag is left unchanged, yet the handler still answers with the
200 body "Livekit Webhook Successfully Processed"; and when the count is
below the cap and the join succeeds, the session starts and the flag is
set. -/
theorem webhook_capacity_gate :
    ∀ (room : ProtoRoom) (body : String) (joinResult : Except String Unit) (flag : Bool),
    ((livekit_webhook_handler true (Except.ok ()) (Except.ok body)
        (Except.ok ⟨"room_started", some room⟩) joinResult flag).2.2 = true →
      room.num_participants < room.max_participants) ∧
    (room.max_participants ≤ room.num_participants →
      livekit_webhook_handler true (Except.ok ()) (Except.ok body)
        (Except.ok ⟨"room_started", some room⟩) joinResult flag =
        (WebhookResp.ok "Livekit Webhook Successfully Processed", flag, false)) ∧
    (room.num_participants < room.max_participants → joinResult = Except.ok () →
      livekit_webhook_handler true (Except.ok ()) (Except.ok body)
        (Except.ok ⟨"room_started", some room⟩) joinResult flag =
        (WebhookResp.ok "Livekit Webhook Successfully Processed", true, true)) := by
  intro room body joinResult flag
  by_cases h : room.num_participants < room.max_participants
  · refine ⟨fun _ => h, fun hge => absurd h (by omega), fun _ hj => ?_⟩
    simp [livekit_webhook_handler, h, hj]
  · refine ⟨fun hs => ?_, fun _ => ?_, fun hlt => absurd hlt h⟩
    · exfalso
      simp [livekit_webhook_handler, h] at hs
    · simp [livekit_webhook_handler, h]

theorem webhook_capacity_gate_witness :
    livekit_webhook_handler true (Except.ok ()) (Except.ok "")
      (Except.ok ⟨"room_started", some ⟨"r", 1, 1⟩⟩) (Except.ok ()) false =
      (WebhookResp.ok "Livekit Webhook Successfully Processed", false, false) ∧
    livekit_webhook_handler true (Except.ok ()) (Except.ok "")
      (Except.ok ⟨"room_started", some ⟨"r", 5, 1⟩⟩) (Except.ok ()) false =
      (WebhookResp.ok "Livekit Webhook Successfully Processed", true, true) :=
  ⟨(webhook_capacity_gate ⟨"r", 1, 1⟩ "" (Except.ok ()) false).2.1 (by decide),
   (webhook_capacity_gate ⟨"r", 5, 1⟩ "" (Except.ok ()) false).2.2 (by decide) rfl⟩

end LivekitAudio
